import Mathlib

/-!
Verification of the blockchain-validator core (src/main.rs) against its
specification. Strings are modelled as lists of characters; machine bytes and
64-bit lanes are modelled as natural numbers reduced modulo 2^8 / 2^64 where
overflow matters. The Keccak-256 hash used by the EIP-55 checksum is embedded
executably below.
-/

/-- One step of the degree-8 LFSR of the Keccak specification (polynomial
x^8 + x^6 + x^5 + x^4 + 1, i.e. feedback mask 0x71). -/
def keccakLfsrStep (r : Nat) : Nat :=
  let r2 := r <<< 1
  (if (r2 >>> 8) % 2 == 1 then r2 ^^^ 0x71 else r2) % 256

/-- Bit rc(t) of the Keccak specification: the low bit of the LFSR state
after t steps from 1. -/
def keccakRcBit (t : Nat) : Nat :=
  (keccakLfsrStep^[t] 1) % 2

/-- Keccak round constants for the 24 rounds of Keccak-f[1600]: the iota
constant of round ir has bit 2^j - 1 equal to rc(j + 7 ir). -/
def keccakRC : List Nat :=
  (List.range 24).map fun ir =>
    (List.range 7).foldl (fun acc j => acc + keccakRcBit (j + 7 * ir) * 2 ^ (2 ^ j - 1)) 0

/-- Rotation offsets of the rho step as an association list on (x, y): the
walk starts at (1, 0) with triangular-number offsets, stepping through the
pi coordinate permutation. -/
def keccakRotWalk : Nat → (Nat × Nat) × List ((Nat × Nat) × Nat)
  | 0 => ((1, 0), [])
  | t + 1 =>
    let prev := keccakRotWalk t
    let xy := prev.1
    ((xy.2, (2 * xy.1 + 3 * xy.2) % 5),
      prev.2 ++ [(xy, (t + 1) * (t + 2) / 2 % 64)])

/-- Rotation offsets of the rho step, indexed by x + 5*y. -/
def keccakROT : List Nat :=
  let pairs := (keccakRotWalk 24).2
  (List.range 25).map fun i =>
    ((pairs.find? (fun p => p.1 == (i % 5, i / 5))).map Prod.snd).getD 0

/-- Left rotation of a 64-bit lane (lanes are naturals below 2^64). -/
def rotl64 (w n : Nat) : Nat :=
  (((w <<< n) % (2 ^ 64)) + (w >>> (64 - n))) % (2 ^ 64)

/-- Lane (x, y) of a 25-lane state, coordinates taken modulo 5. -/
def keccakLane (s : List Nat) (x y : Nat) : Nat :=
  s.getD (x % 5 + 5 * (y % 5)) 0

/-- Theta step of Keccak-f. -/
def keccakTheta (s : List Nat) : List Nat :=
  let c := (List.range 5).map fun x =>
    keccakLane s x 0 ^^^ keccakLane s x 1 ^^^ keccakLane s x 2 ^^^
      keccakLane s x 3 ^^^ keccakLane s x 4
  let d := (List.range 5).map fun x =>
    c.getD ((x + 4) % 5) 0 ^^^ rotl64 (c.getD ((x + 1) % 5) 0) 1
  (List.range 25).map fun i => s.getD i 0 ^^^ d.getD (i % 5) 0

/-- Combined rho and pi steps of Keccak-f. -/
def keccakRhoPi (s : List Nat) : List Nat :=
  (List.range 25).map fun i =>
    let bx := i % 5
    let by2 := i / 5
    let x := (3 * (by2 + 2 * bx)) % 5
    let y := bx
    rotl64 (keccakLane s x y) (keccakROT.getD (x + 5 * y) 0)

/-- Chi step of Keccak-f. -/
def keccakChi (s : List Nat) : List Nat :=
  (List.range 25).map fun i =>
    let x := i % 5
    let y := i / 5
    keccakLane s x y ^^^
      ((keccakLane s (x + 1) y ^^^ (2 ^ 64 - 1)) &&& keccakLane s (x + 2) y)

/-- One round of Keccak-f: theta, rho, pi, chi, iota. -/
def keccakRound (s : List Nat) (rc : Nat) : List Nat :=
  match keccakChi (keccakRhoPi (keccakTheta s)) with
  | [] => []
  | a :: rest => (a ^^^ rc) :: rest

/-- The full 24-round Keccak-f[1600] permutation. -/
def keccakF (s : List Nat) : List Nat :=
  keccakRC.foldl keccakRound s

/-- Assemble up to eight little-endian bytes into one 64-bit lane. -/
def bytesToLane (bs : List Nat) : Nat :=
  bs.foldr (fun b acc => acc * 256 + b) 0

/-- Split a byte list into rate-sized (136-byte) blocks; fuel bounds recursion. -/
def toBlocks : Nat → List Nat → List (List Nat)
  | 0, _ => []
  | _, [] => []
  | fuel + 1, l => l.take 136 :: toBlocks fuel (l.drop 136)

/-- Xor one 136-byte block into the state and apply the permutation. -/
def absorbBlock (s : List Nat) (block : List Nat) : List Nat :=
  let lanes := (List.range 17).map fun j => bytesToLane ((block.drop (8 * j)).take 8)
  keccakF ((List.range 25).map fun i =>
    s.getD i 0 ^^^ (if i < 17 then lanes.getD i 0 else 0))

/-- Keccak-256 (the pre-SHA3 padding variant used by Ethereum): bytes in,
32 digest bytes out. -/
def keccak256 (msg : List Nat) : List Nat :=
  let q := 136 - msg.length % 136
  let padded :=
    if q == 1 then msg ++ [0x81]
    else msg ++ [0x01] ++ List.replicate (q - 2) 0 ++ [0x80]
  let blocks := toBlocks padded.length padded
  let s := blocks.foldl absorbBlock (List.replicate 25 0)
  (List.range 32).map fun i => (s.getD (i / 8) 0 >>> (8 * (i % 8))) &&& 0xff

/-- Rust `char::is_digit(16)`: decimal digits and hex letters of either case. -/
def is_digit16 (c : Char) : Bool :=
  let n := c.toNat
  (decide (48 ≤ n) && decide (n ≤ 57)) ||
    (decide (97 ≤ n) && decide (n ≤ 102)) ||
    (decide (65 ≤ n) && decide (n ≤ 70))

/-- Rust `str::strip_prefix("0x")`: the characters after a leading `0x`. -/
def dropPfx0x (l : List Char) : Option (List Char) :=
  if l.take 2 == ['0', 'x'] then some (l.drop 2) else none

/-- Rust `str::starts_with("bc1")`. -/
def startsWithBc1 (l : List Char) : Bool :=
  l.take 3 == ['b', 'c', '1']

/-- Rust `hex::decode(s).is_ok()`: the crate succeeds exactly on an even number of
hex digits. -/
def hex_decode_ok (s : List Char) : Bool :=
  (s.length % 2 == 0) && s.all is_digit16

/-- One character class of the regex `[1-9A-HJ-NP-Za-km-z]`. -/
def regex_base58_char (c : Char) : Bool :=
  let n := c.toNat
  (decide (49 ≤ n) && decide (n ≤ 57)) ||
    (decide (65 ≤ n) && decide (n ≤ 72)) ||
    (decide (74 ≤ n) && decide (n ≤ 78)) ||
    (decide (80 ≤ n) && decide (n ≤ 90)) ||
    (decide (97 ≤ n) && decide (n ≤ 107)) ||
    (decide (109 ≤ n) && decide (n ≤ 122))

/-- Rust `Regex::new(r"^[1-9A-HJ-NP-Za-km-z]+$").is_match(s)`: nonempty and every
character in the class. -/
def regex_b58_match (s : List Char) : Bool :=
  !s.isEmpty && s.all regex_base58_char

/-- Value of a character in the Bitcoin Base58 alphabet
`123456789ABCDEFGHJKLMNPQRSTUVWXYZabcdefghijkmnopqrstuvwxyz`. -/
def base58_char_value (c : Char) : Option Nat :=
  let n := c.toNat
  if decide (49 ≤ n) && decide (n ≤ 57) then some (n - 49)
  else if decide (65 ≤ n) && decide (n ≤ 72) then some (n - 56)
  else if decide (74 ≤ n) && decide (n ≤ 78) then some (n - 57)
  else if decide (80 ≤ n) && decide (n ≤ 90) then some (n - 58)
  else if decide (97 ≤ n) && decide (n ≤ 107) then some (n - 64)
  else if decide (109 ≤ n) && decide (n ≤ 122) then some (n - 65)
  else none

/-- Map every character to its Base58 value; fail on the first invalid one. -/
def map_b58 : List Char → Option (List Nat)
  | [] => some []
  | c :: cs =>
    match base58_char_value c, map_b58 cs with
    | some v, some vs => some (v :: vs)
    | _, _ => none

/-- Number of leading `1` characters (each maps to one leading zero byte). -/
def count_leading_ones : List Char → Nat
  | [] => 0
  | c :: cs => if c == '1' then count_leading_ones cs + 1 else 0

/-- Big-endian base-58 accumulation of digit values. -/
def digits_to_nat (ds : List Nat) : Nat :=
  ds.foldl (fun acc d => acc * 58 + d) 0

/-- Minimal big-endian byte representation of `n`; the fuel bounds the byte
count (any value of `k` base-58 digits fits in `k` bytes). -/
def nat_to_bytes_be : Nat → Nat → List Nat
  | 0, _ => []
  | fuel + 1, n => if n == 0 then [] else nat_to_bytes_be fuel (n / 256) ++ [n % 256]

/-- Rust `bs58::decode(s).into_vec()`: leading-`1` zero bytes followed by the
big-endian bytes of the accumulated value; errors exactly on a character
outside the alphabet. -/
def bs58_decode (s : List Char) : Option (List Nat) :=
  match map_b58 s with
  | none => none
  | some ds =>
    some (List.replicate (count_leading_ones s) 0 ++
      nat_to_bytes_be s.length (digits_to_nat ds))

/-- The report accumulator of src/main.rs: an overall flag plus the ordered
(name, message) detail pairs. -/
structure ValidationResult where
  valid : Bool
  details : List (String × String)
deriving DecidableEq, Repr

/-- Constructor `ValidationResult::new()`. -/
def ValidationResult.new : ValidationResult :=
  { valid := true, details := [] }

/-- Method `ValidationResult::add_check`: fold the check outcome into `valid` and
append the detail pair. -/
def ValidationResult.add_check (r : ValidationResult) (check : String)
    (result : Bool) (message : String) : ValidationResult :=
  { valid := r.valid && result, details := r.details ++ [(check, message)] }

/-- A named check together with its boolean outcome and its rendered detail. -/
abbrev CheckTriple := String × Bool × String

/-- Replay a list of checks through `add_check` starting from a fresh report. -/
def run_checks (cs : List CheckTriple) : ValidationResult :=
  cs.foldl (fun r c => r.add_check c.1 c.2.1 c.2.2) ValidationResult.new

/-- The per-position loop of `validate_eth_checksum` in src/main.rs. The Rust
iterator `all` short-circuits on the first failing position; a position whose
lowercased character satisfies `is_digit(16)` passes trivially, otherwise the
digest is indexed as `hash[i / 2]`, which is a bounds-checked access that
aborts the process (modelled `none`) once the position index reaches twice
the 32-byte digest length — the loop runs over every character of the
stripped address, not just 40 of them, so this abort is reachable. In bounds,
the character must be uppercase exactly when the nibble is at least 8. -/
def checksum_fold (hash : List Nat) : List (Nat × Char × Char) → Option Bool
  | [] => some true
  | p :: ps =>
    if is_digit16 p.2.2 then
      checksum_fold hash ps
    else if p.1 / 2 < hash.length then
      let hash_val := (hash.getD (p.1 / 2) 0 >>> (if p.1 % 2 == 0 then 4 else 0)) &&& 0xf
      if (decide (8 ≤ hash_val)) == p.2.1.isUpper then checksum_fold hash ps
      else some false
    else
      none

/-- The body of `validate_eth_checksum` after the prefix strip: hash the
lowercased characters with Keccak-256 and run the position loop; `none` is
the out-of-bounds digest read. -/
def checksum_core (addr : List Char) : Option Bool :=
  let address_lower := addr.map Char.toLower
  let hash := keccak256 (address_lower.map Char.toNat)
  checksum_fold hash ((addr.zip address_lower).enum)

/-- Function `validate_eth_checksum` of src/main.rs: strip the `0x` prefix (a
panic, modelled as `none`, if absent) and run the checksum loop, whose own
digest-indexing abort also surfaces as `none`. -/
def validate_eth_checksum (address : List Char) : Option Bool :=
  (dropPfx0x address).bind checksum_core

/-- Function `validate_eth_address` of src/main.rs. The two trailing checks exist only
inside the `if let Some(hex_part) = address.strip_prefix("0x")` branch; the
checksum call's `unwrap` is modelled through `Option`. -/
def validate_eth_address (address : List Char) (_verbose : Bool) :
    Option ValidationResult :=
  let result := ValidationResult.new
  let starts_with_0x := (dropPfx0x address).isSome
  let result := result.add_check "Starts with 0x" starts_with_0x
    (toString starts_with_0x)
  let correct_length := address.length == 42
  let result := result.add_check "Length (42 chars)" correct_length
    (toString correct_length ++ " (actual: " ++ toString address.length ++ ")")
  match dropPfx0x address with
  | some hex_part =>
    let is_valid_hex := hex_decode_ok hex_part
    let result := result.add_check "Valid hex characters" is_valid_hex
      (toString is_valid_hex)
    if hex_part.any Char.isUpper then
      match validate_eth_checksum address with
      | some checksum_valid =>
        some (result.add_check "EIP-55 checksum" checksum_valid
          (toString checksum_valid))
      | none => none
    else
      some (result.add_check "EIP-55 checksum" true "skipped (all lowercase)")
  | none => some result

/-- The Bitcoin length rule of src/main.rs, conditioned on the detected type. -/
def btc_length_ok (address : List Char) : Bool :=
  if address.head? == some '1' then
    address.length == 34 || address.length == 33
  else if address.head? == some '3' then
    address.length == 34
  else if startsWithBc1 address then
    decide (42 ≤ address.length) && decide (address.length ≤ 62)
  else
    false

/-- The Bitcoin address-type detail string of src/main.rs. -/
def btc_type_detail (address : List Char) : String :=
  if address.head? == some '1' then "Legacy (starts with 1)"
  else if address.head? == some '3' then "P2SH (starts with 3)"
  else if startsWithBc1 address then "Bech32 (starts with bc1)"
  else "Unknown"

/-- Function `validate_btc_address` of src/main.rs. -/
def validate_btc_address (address : List Char) (_verbose : Bool) :
    ValidationResult :=
  let result := ValidationResult.new
  let is_legacy := address.head? == some '1'
  let is_p2sh := address.head? == some '3'
  let is_bech32 := startsWithBc1 address
  let result := result.add_check "Address type" (is_legacy || is_p2sh || is_bech32)
    (btc_type_detail address)
  let length_ok := btc_length_ok address
  let result := result.add_check "Length" length_ok
    (toString length_ok ++ " (actual: " ++ toString address.length ++ ")")
  if is_legacy || is_p2sh then
    let is_base58 := regex_b58_match address
    result.add_check "Base58 characters" is_base58 (toString is_base58)
  else
    result

/-- The Solana length rule of src/main.rs: `(32..=44).contains(&len)`. -/
def sol_length_ok (address : List Char) : Bool :=
  decide (32 ≤ address.length) && decide (address.length ≤ 44)

/-- The Solana first-character rule of src/main.rs: first character in
`'1'..='5'`. -/
def sol_first_ok (address : List Char) : Bool :=
  match address.head? with
  | some c => decide (49 ≤ c.toNat) && decide (c.toNat ≤ 53)
  | none => false

/-- Function `validate_sol_address` of src/main.rs. The decode step runs only when the
running `valid` flag and the verbose flag are both set; the `unwrap` on the
decoded vector is modelled through `Option`. -/
def validate_sol_address (address : List Char) (verbose : Bool) :
    Option ValidationResult :=
  let result := ValidationResult.new
  let length_ok := sol_length_ok address
  let result := result.add_check "Length (32-44 chars)" length_ok
    (toString length_ok ++ " (actual: " ++ toString address.length ++ ")")
  let is_base58 := regex_b58_match address
  let result := result.add_check "Base58 characters" is_base58 (toString is_base58)
  let first_char_ok := sol_first_ok address
  let result := result.add_check "First character (1-5)" first_char_ok
    (toString first_char_ok ++ " (actual: " ++
      String.singleton (address.headD ' ') ++ ")")
  if result.valid && verbose then
    let decode_result := bs58_decode address
    let is_valid_encoding := decode_result.isSome
    let is_correct_length :=
      match decode_result with
      | some v => v.length == 32
      | none => false
    let result := result.add_check "Base58 decoding" is_valid_encoding
      (toString is_valid_encoding)
    if is_valid_encoding then
      match decode_result with
      | some v =>
        some (result.add_check "Decoded length (32 bytes)" is_correct_length
          (toString is_correct_length ++ " (actual: " ++ toString v.length ++ ")"))
      | none => none
    else
      some result
  else
    some result

/-- The closed set of supported chains, as dispatched by `main`. -/
inductive ChainKind
  | eth
  | btc
  | sol
deriving DecidableEq

/-- The per-chain dispatch of `main` (the `"eth" | "btc" | "sol"` match). -/
def validate (chain : ChainKind) (address : List Char) (verbose : Bool) :
    Option ValidationResult :=
  match chain with
  | ChainKind.eth => validate_eth_address address verbose
  | ChainKind.btc => some (validate_btc_address address verbose)
  | ChainKind.sol => validate_sol_address address verbose

/-- The ordered (name, outcome, message) triples fed to `add_check` by
`validate_eth_address`; `none` when the checksum step aborts, in which case
no report is produced at all. -/
def eth_checks (address : List Char) : Option (List CheckTriple) :=
  let starts_with_0x := (dropPfx0x address).isSome
  let correct_length := address.length == 42
  let base : List CheckTriple :=
    [("Starts with 0x", starts_with_0x, toString starts_with_0x),
     ("Length (42 chars)", correct_length,
       toString correct_length ++ " (actual: " ++ toString address.length ++ ")")]
  match dropPfx0x address with
  | some hex_part =>
    let is_valid_hex := hex_decode_ok hex_part
    let base2 := base ++ [("Valid hex characters", is_valid_hex, toString is_valid_hex)]
    if hex_part.any Char.isUpper then
      match checksum_core hex_part with
      | some b => some (base2 ++ [("EIP-55 checksum", b, toString b)])
      | none => none
    else
      some (base2 ++ [("EIP-55 checksum", true, "skipped (all lowercase)")])
  | none => some base

/-- The ordered (name, outcome, message) triples fed to `add_check` by
`validate_btc_address`. -/
def btc_checks (address : List Char) : List CheckTriple :=
  let is_legacy := address.head? == some '1'
  let is_p2sh := address.head? == some '3'
  let is_bech32 := startsWithBc1 address
  let length_ok := btc_length_ok address
  [("Address type", is_legacy || is_p2sh || is_bech32, btc_type_detail address),
   ("Length", length_ok,
     toString length_ok ++ " (actual: " ++ toString address.length ++ ")")] ++
  (if is_legacy || is_p2sh then
    [("Base58 characters", regex_b58_match address, toString (regex_b58_match address))]
  else [])

/-- The running `valid` flag of `validate_sol_address` after its first three
checks: the guard of the decode step. -/
def sol_pre (address : List Char) : Bool :=
  ((true && sol_length_ok address) && regex_b58_match address) && sol_first_ok address

/-- The ordered (name, outcome, message) triples fed to `add_check` by
`validate_sol_address`. -/
def sol_checks (address : List Char) (verbose : Bool) : List CheckTriple :=
  let length_ok := sol_length_ok address
  let is_base58 := regex_b58_match address
  let first_char_ok := sol_first_ok address
  let base : List CheckTriple :=
    [("Length (32-44 chars)", length_ok,
       toString length_ok ++ " (actual: " ++ toString address.length ++ ")"),
     ("Base58 characters", is_base58, toString is_base58),
     ("First character (1-5)", first_char_ok,
       toString first_char_ok ++ " (actual: " ++
         String.singleton (address.headD ' ') ++ ")")]
  if sol_pre address && verbose then
    let decode_result := bs58_decode address
    let is_valid_encoding := decode_result.isSome
    let is_correct_length := (decode_result.getD []).length == 32
    base ++ [("Base58 decoding", is_valid_encoding, toString is_valid_encoding)] ++
      (if is_valid_encoding then
        [("Decoded length (32 bytes)", is_correct_length,
          toString is_correct_length ++ " (actual: " ++
            toString (decode_result.getD []).length ++ ")")]
      else [])
  else
    base

/-- The check triples behind each chain's report; `none` exactly when the
Ethereum checksum step aborts. -/
def checksOf : ChainKind → List Char → Bool → Option (List CheckTriple)
  | ChainKind.eth, a, _ => eth_checks a
  | ChainKind.btc, a, _ => some (btc_checks a)
  | ChainKind.sol, a, v => some (sol_checks a v)

/-- Modelled from the spec, section 4.3 and claim C1: the EIP-55 condition on
the 40 hex characters. At every position whose lowercased character is a hex
letter `a`-`f`, the character must be uppercase exactly when the digest nibble
of Keccak-256 of the lowercased characters (byte `i/2`, high nibble for even
`i`) is at least 8. -/
def eip55_spec_ok (hexchars : List Char) : Bool :=
  let lowered := hexchars.map Char.toLower
  let hash := keccak256 (lowered.map Char.toNat)
  ((hexchars.zip lowered).enum).all fun p =>
    if decide (97 ≤ p.2.2.toNat) && decide (p.2.2.toNat ≤ 102) then
      (decide (8 ≤ ((hash.getD (p.1 / 2) 0 >>> (if p.1 % 2 == 0 then 4 else 0)) &&& 0xf)))
        == p.2.1.isUpper
    else
      true

/-- Modelled from the spec, section 4.2 and claim C6: the Base58 alphabet as
described — digits 1-9, uppercase letters except I and O, lowercase letters
except l. -/
def base58_alpha_spec (c : Char) : Bool :=
  let n := c.toNat
  (decide (49 ≤ n) && decide (n ≤ 57)) ||
    (decide (65 ≤ n) && decide (n ≤ 90) && !(n == 73) && !(n == 79)) ||
    (decide (97 ≤ n) && decide (n ≤ 122) && !(n == 108))

/-- One lowercase hex digit character for a nibble value. -/
def hex_digit_char (n : Nat) : Char :=
  if n < 10 then Char.ofNat (48 + n) else Char.ofNat (87 + n)

/-- Lowercase hex encoding of a byte list, two characters per byte. -/
def hex_encode : List Nat → List Char
  | [] => []
  | b :: bs => hex_digit_char (b / 16) :: hex_digit_char (b % 16) :: hex_encode bs

/-! Helper lemmas. -/

theorem run_checks_aux (cs : List CheckTriple) (r : ValidationResult) :
    (cs.foldl (fun r c => r.add_check c.1 c.2.1 c.2.2) r).valid
        = (r.valid && cs.all fun c => c.2.1) ∧
      (cs.foldl (fun r c => r.add_check c.1 c.2.1 c.2.2) r).details
        = r.details ++ (cs.map fun c => (c.1, c.2.2)) := by
  induction cs generalizing r with
  | nil => simp
  | cons c cs ih =>
    constructor
    · rw [List.foldl_cons, (ih _).1]
      simp [ValidationResult.add_check, Bool.and_assoc]
    · rw [List.foldl_cons, (ih _).2]
      simp [ValidationResult.add_check]

theorem run_checks_valid (cs : List CheckTriple) :
    (run_checks cs).valid = cs.all fun c => c.2.1 := by
  have h := run_checks_aux cs ValidationResult.new
  simpa [run_checks, ValidationResult.new] using h.1

theorem run_checks_details (cs : List CheckTriple) :
    (run_checks cs).details = cs.map fun c => (c.1, c.2.2) := by
  have h := run_checks_aux cs ValidationResult.new
  simpa [run_checks, ValidationResult.new] using h.2

theorem validate_eth_eq (address : List Char) (v : Bool) :
    validate_eth_address address v = (eth_checks address).map run_checks := by
  unfold validate_eth_address eth_checks validate_eth_checksum
  cases h : dropPfx0x address with
  | none =>
    simp [h, run_checks, ValidationResult.add_check, ValidationResult.new]
  | some hex =>
    by_cases hu : hex.any Char.isUpper
    · cases hc : checksum_core hex with
      | none => simp [h, hu, hc]
      | some b =>
        simp [h, hu, hc, run_checks, ValidationResult.add_check, ValidationResult.new]
    · simp [h, hu, run_checks, ValidationResult.add_check, ValidationResult.new]

theorem validate_btc_eq (address : List Char) (v : Bool) :
    validate_btc_address address v = run_checks (btc_checks address) := by
  unfold validate_btc_address btc_checks
  by_cases h : (address.head? == some '1' || address.head? == some '3') = true
  all_goals
    by_cases hb : startsWithBc1 address
  all_goals
    simp_all [run_checks, ValidationResult.add_check, ValidationResult.new]

theorem validate_sol_eq (address : List Char) (v : Bool) :
    validate_sol_address address v = some (run_checks (sol_checks address v)) := by
  unfold validate_sol_address sol_checks
  by_cases hg : (sol_pre address && v) = true
  · have hc : sol_length_ok address = true ∧ regex_b58_match address = true ∧
        sol_first_ok address = true ∧ v = true := by
      revert hg
      unfold sol_pre
      cases sol_length_ok address <;> cases regex_b58_match address <;>
        cases sol_first_ok address <;> cases v <;> simp
    obtain ⟨hl, hb, hf, hv⟩ := hc
    cases hd : bs58_decode address with
    | none =>
      simp [hg, hd, run_checks, ValidationResult.add_check, ValidationResult.new]
      exact ⟨hl, hb, hf, hv⟩
    | some dec =>
      simp [hg, hd, run_checks, ValidationResult.add_check, ValidationResult.new]
      exact ⟨hl, hb, hf, hv⟩
  · simp [hg, run_checks, ValidationResult.add_check, ValidationResult.new]
    intro h1 h2 h3 h4
    exact absurd (by simp [sol_pre, h1, h2, h3, h4]) hg

theorem validate_eq (c : ChainKind) (address : List Char) (v : Bool) :
    validate c address v = (checksOf c address v).map run_checks := by
  cases c with
  | eth => exact validate_eth_eq address v
  | btc => simp [validate, checksOf, validate_btc_eq address v]
  | sol => simp [validate, checksOf, validate_sol_eq address v]

theorem b58val_isSome (c : Char) :
    (base58_char_value c).isSome = regex_base58_char c := by
  unfold base58_char_value regex_base58_char
  rw [Bool.eq_iff_iff]
  simp only [Option.isSome_some, Option.isSome_none, Bool.or_eq_true,
    Bool.and_eq_true, decide_eq_true_eq]
  repeat' split
  all_goals simp_all

theorem map_b58_isSome (s : List Char) (h : s.all regex_base58_char = true) :
    (map_b58 s).isSome = true := by
  induction s with
  | nil => rfl
  | cons c cs ih =>
    simp only [List.all_cons, Bool.and_eq_true] at h
    have h1 : (base58_char_value c).isSome = true := by
      rw [b58val_isSome]; exact h.1
    have h2 := ih h.2
    unfold map_b58
    cases hv : base58_char_value c with
    | none => rw [hv] at h1; simp at h1
    | some v =>
      cases hm : map_b58 cs with
      | none => rw [hm] at h2; simp at h2
      | some vs => simp

theorem bs58_decode_isSome (s : List Char) (h : regex_b58_match s = true) :
    (bs58_decode s).isSome = true := by
  unfold regex_b58_match at h
  simp only [Bool.and_eq_true] at h
  have h2 := map_b58_isSome s h.2
  unfold bs58_decode
  cases hm : map_b58 s with
  | none => rw [hm] at h2; simp at h2
  | some ds => simp

theorem regex_char_eq_spec (c : Char) :
    regex_base58_char c = base58_alpha_spec c := by
  unfold regex_base58_char base58_alpha_spec
  rw [Bool.eq_iff_iff]
  simp only [Bool.or_eq_true, Bool.and_eq_true, decide_eq_true_eq,
    Bool.not_eq_true', beq_eq_false_iff_ne, ne_eq]
  omega

theorem all_regex_eq_all_spec (s : List Char) :
    s.all regex_base58_char = s.all base58_alpha_spec := by
  induction s with
  | nil => rfl
  | cons c cs ih => simp [List.all_cons, regex_char_eq_spec, ih]

theorem hex_digit_char_props :
    ∀ n, n < 16 → is_digit16 (hex_digit_char n) = true ∧
      Char.isUpper (hex_digit_char n) = false := by
  decide

theorem hex_encode_length (bs : List Nat) :
    (hex_encode bs).length = 2 * bs.length := by
  induction bs with
  | nil => rfl
  | cons b bs ih => simp [hex_encode, ih]; omega

theorem hex_encode_all (bs : List Nat) (h : ∀ b ∈ bs, b < 256) :
    (hex_encode bs).all (fun c => is_digit16 c && !(Char.isUpper c)) = true := by
  induction bs with
  | nil => rfl
  | cons b bs ih =>
    have hb : b < 256 := h b (by simp)
    have h1 := hex_digit_char_props (b / 16) (by omega)
    have h2 := hex_digit_char_props (b % 16) (by omega)
    have h3 := ih fun x hx => h x (by simp [hx])
    simp [hex_encode, h1.1, h1.2, h2.1, h2.2, h3]

theorem hex_encode_decode_ok (bs : List Nat) (h : ∀ b ∈ bs, b < 256) :
    hex_decode_ok (hex_encode bs) = true := by
  have ha := hex_encode_all bs h
  unfold hex_decode_ok
  simp only [List.all_eq_true, Bool.and_eq_true, decide_eq_true_eq] at ha ⊢
  constructor
  · simp [hex_encode_length, Nat.mul_mod_right]
  · intro c hc
    exact (ha c hc).1

theorem hex_encode_no_upper (bs : List Nat) (h : ∀ b ∈ bs, b < 256) :
    (hex_encode bs).any Char.isUpper = false := by
  have ha := hex_encode_all bs h
  simp only [List.all_eq_true, Bool.and_eq_true, Bool.not_eq_true'] at ha
  simp only [List.any_eq_false]
  intro c hc
  simp [(ha c hc).2]

theorem dropPfx0x_cons (rest : List Char) :
    dropPfx0x ('0' :: 'x' :: rest) = some rest := by
  simp [dropPfx0x]

theorem sol_pre_parts (address : List Char) (h : sol_pre address = true) :
    sol_length_ok address = true ∧ regex_b58_match address = true ∧
      sol_first_ok address = true := by
  revert h
  unfold sol_pre
  cases sol_length_ok address <;> cases regex_b58_match address <;>
    cases sol_first_ok address <;> simp

theorem char_ofNat_toNat_hex (n : Nat) (h1 : 97 ≤ n) (h2 : n ≤ 102) :
    (Char.ofNat n).toNat = n := by
  interval_cases n <;> decide

theorem is_digit16_toLower (c : Char) (h : is_digit16 c = true) :
    is_digit16 c.toLower = true := by
  unfold is_digit16 at h ⊢
  simp only [Bool.or_eq_true, Bool.and_eq_true, decide_eq_true_eq] at h ⊢
  unfold Char.toLower
  by_cases hc : c.toNat ≥ 65 ∧ c.toNat ≤ 90
  · rw [if_pos hc]
    rw [char_ofNat_toNat_hex (c.toNat + 32) (by omega) (by omega)]
    omega
  · rw [if_neg hc]
    exact h

theorem checksum_fold_skip (hash : List Nat) (l : List (Nat × Char × Char))
    (h : ∀ p ∈ l, is_digit16 p.2.2 = true) :
    checksum_fold hash l = some true := by
  induction l with
  | nil => rfl
  | cons p ps ih =>
    have hp := h p (by simp)
    have hps := ih fun q hq => h q (by simp [hq])
    simp [checksum_fold, hp, hps]

theorem checksum_core_all_hex (addr : List Char) (h : addr.all is_digit16 = true) :
    checksum_core addr = some true := by
  unfold checksum_core
  apply checksum_fold_skip
  intro p hp
  rcases p with ⟨i, a, b⟩
  have h2 : (a, b) ∈ addr.zip (addr.map Char.toLower) :=
    List.getElem?_mem (List.mem_enum_iff_getElem?.mp hp)
  have h3 : b ∈ addr.map Char.toLower := (List.of_mem_zip h2).2
  simp only [List.mem_map] at h3
  obtain ⟨y, hy, hyb⟩ := h3
  simp only [List.all_eq_true] at h
  rw [show ((i, a, b) : Nat × Char × Char).2.2 = b from rfl]
  rw [hyb.symm]
  exact is_digit16_toLower y (h y hy)

theorem btc_length_ok_eq (address : List Char) :
    btc_length_ok address =
      (((address.head? == some '1') && (address.length == 33 || address.length == 34)) ||
        ((address.head? == some '3') && (address.length == 34)) ||
        (startsWithBc1 address &&
          (decide (42 ≤ address.length) && decide (address.length ≤ 62)))) := by
  unfold btc_length_ok
  cases address with
  | nil => rfl
  | cons c cs =>
    rw [Bool.eq_iff_iff]
    by_cases h1 : c = '1' <;> by_cases h3 : c = '3' <;>
      by_cases hb : startsWithBc1 (c :: cs) = true <;>
      simp_all [startsWithBc1, List.take_succ_cons] <;> tauto

/-! Claim theorems. -/

/-- C2 names a code bug: the spec's failure semantics say no check ever
aborts, but `validate_eth_checksum` indexes the 32-byte digest at
`hash[i / 2]` for every character position of the stripped address, so at the
ASCII input `0x` followed by 64 `a` and one `Z` the position of the trailing
`z` reads `hash[32]` and the process aborts with no report (modelled `none`).
The Bitcoin and Solana validators never abort. -/
theorem claim_C2_panic_divergence :
    validate ChainKind.eth ('0' :: 'x' :: (List.replicate 64 'a' ++ ['Z']))
        false = none ∧
      ∀ (address : List Char) (v : Bool),
        (validate ChainKind.btc address v).isSome = true ∧
          (validate ChainKind.sol address v).isSome = true := by
  constructor
  · decide
  · intro address v
    constructor
    · rfl
    · show (validate_sol_address address v).isSome = true
      rw [validate_sol_eq]
      rfl

/-- C3 as stated is false: on an input that does not start with `0x` the
Ethereum report does not contain the hex and checksum checks; at input
`"hello"` the report has only two entries. -/
theorem claim_C3_counterexample :
    ((validate_eth_address "hello".toList false).map
        (fun r => (r.details.map Prod.fst).contains "EIP-55 checksum")) = some false ∧
      ((validate_eth_address "hello".toList false).map
        (fun r => r.details.length)) = some 2 := by
  constructor <;> decide

/-- C3 amended: for inputs not starting with `0x` the Ethereum report
contains exactly the prefix and length checks; for inputs starting with `0x`
the validator either returns a report containing all four checks regardless
of which checks failed, or — when the checksum step overruns the digest —
aborts and returns no report at all (third conjunct exhibits such an input). -/
theorem claim_C3_amended (address : List Char) (v : Bool) :
    ((dropPfx0x address).isSome = false →
      (validate_eth_address address v).map (fun r => r.details.map Prod.fst) =
        some ["Starts with 0x", "Length (42 chars)"]) ∧
      (∀ r, validate_eth_address address v = some r →
        (dropPfx0x address).isSome = true →
        r.details.map Prod.fst =
          ["Starts with 0x", "Length (42 chars)", "Valid hex characters",
            "EIP-55 checksum"]) ∧
      validate_eth_address ('0' :: 'x' :: (List.replicate 64 'a' ++ ['Z']))
        false = none := by
  refine ⟨fun h => ?_, fun r hr hs => ?_, by decide⟩
  · cases hd : dropPfx0x address with
    | some hex => rw [hd] at h; simp at h
    | none =>
      rw [validate_eth_eq]
      unfold eth_checks
      rw [hd]
      simp [run_checks_details]
  · cases hd : dropPfx0x address with
    | none => rw [hd] at hs; simp at hs
    | some hex =>
      rw [validate_eth_eq] at hr
      unfold eth_checks at hr
      rw [hd] at hr
      by_cases hu : hex.any Char.isUpper
      · cases hc : checksum_core hex with
        | none => simp [hu, hc] at hr
        | some b =>
          simp [hu, hc] at hr
          rw [← hr, run_checks_details]
          simp
      · simp [hu] at hr
        rw [← hr, run_checks_details]
        simp

/-- C3 amended witness: a non-prefixed input with its two-entry report and a
prefixed input whose returned report has all four check names. -/
theorem claim_C3_amended_witness :
    ((dropPfx0x "hello".toList).isSome = false ∧
      (validate_eth_address "hello".toList false).map
          (fun r => r.details.map Prod.fst) =
        some ["Starts with 0x", "Length (42 chars)"]) ∧
      validate_eth_address "0xab".toList false =
        some ((validate_eth_address "0xab".toList false).getD
          ValidationResult.new) ∧
      (dropPfx0x "0xab".toList).isSome = true ∧
      ((validate_eth_address "0xab".toList false).getD
            ValidationResult.new).details.map Prod.fst =
        ["Starts with 0x", "Length (42 chars)", "Valid hex characters",
          "EIP-55 checksum"] :=
  ⟨⟨by decide, (claim_C3_amended _ _).1 (by decide)⟩, by decide, by decide,
    (claim_C3_amended "0xab".toList false).2.1 _ (by decide) (by decide)⟩

/-- C4 fails as stated at the digest-overrun input: the validator returns no
report at all there, so there is no returned report whose validity flag
could equal anything. -/
theorem claim_C4_counterexample :
    validate ChainKind.eth ('0' :: 'x' :: (List.replicate 64 'a' ++ ['Z']))
      true = none := by
  decide

/-- C4 amended: whenever the validator returns a report, its overall validity
flag is the conjunction of the per-check outcomes folded through `add_check`
(an empty check sequence yields `true`) and its recorded details are exactly
the per-check name/message pairs; every chain's report arises as `run_checks`
of its check triples, `none` exactly when the Ethereum checksum step aborts. -/
theorem claim_C4_overall_valid :
    (∀ cs : List CheckTriple,
      (run_checks cs).valid = (cs.all fun c => c.2.1) ∧
        (run_checks cs).details = (cs.map fun c => (c.1, c.2.2))) ∧
      ∀ (c : ChainKind) (address : List Char) (v : Bool),
        validate c address v = (checksOf c address v).map run_checks :=
  ⟨fun cs => ⟨run_checks_valid cs, run_checks_details cs⟩, validate_eq⟩

/-- C9: an Ethereum input `0x` followed by an odd number of characters fails
the "Valid hex characters" check even when every character is a hex digit,
because `hex::decode` requires an even count. -/
theorem claim_C9_odd_hex (rest : List Char) (hodd : rest.length % 2 = 1)
    (hhex : rest.all is_digit16 = true) :
    (eth_checks ('0' :: 'x' :: rest)).map
        (fun cs => (cs.map fun c => c.2.1).get? 2) =
      some (some false) := by
  unfold eth_checks
  rw [dropPfx0x_cons]
  by_cases hu : rest.any Char.isUpper
  · have hc := checksum_core_all_hex rest hhex
    simp [hu, hc, hex_decode_ok, hodd]
  · simp [hu, hex_decode_ok, hodd]

/-- C9 witness: the all-hex odd-length suffix `abc`. -/
theorem claim_C9_odd_hex_witness :
    "abc".toList.length % 2 = 1 ∧ "abc".toList.all is_digit16 = true ∧
      (eth_checks ('0' :: 'x' :: "abc".toList)).map
          (fun cs => (cs.map fun c => c.2.1).get? 2) =
        some (some false) :=
  ⟨by decide, by decide, claim_C9_odd_hex _ (by decide) (by decide)⟩

/-- C10: the Solana decode sub-checks run exactly when the verbose flag is set
and the three preceding checks passed (then the report has the five check
names); otherwise the report holds exactly the three basic checks, and with
verbose off the verdict is exactly the conjunction of those three checks. -/
theorem claim_C10_sol_gating (address : List Char) (v : Bool) :
    (validate_sol_address address v).map (fun r => r.details.map Prod.fst) =
      some (if sol_pre address && v then
        ["Length (32-44 chars)", "Base58 characters", "First character (1-5)",
          "Base58 decoding", "Decoded length (32 bytes)"]
      else
        ["Length (32-44 chars)", "Base58 characters", "First character (1-5)"]) ∧
      (validate_sol_address address false).map ValidationResult.valid =
        some (sol_pre address) := by
  constructor
  · rw [validate_sol_eq]
    simp only [Option.map_some']
    rw [run_checks_details]
    unfold sol_checks
    by_cases hg : (sol_pre address && v) = true
    · have hb := (sol_pre_parts address (by
        cases hp : sol_pre address
        · rw [hp] at hg; simp at hg
        · rfl)).2.1
      have hd := bs58_decode_isSome address hb
      simp [hg, hd]
    · simp [hg]
  · rw [validate_sol_eq]
    simp only [Option.map_some']
    rw [run_checks_valid]
    unfold sol_checks
    have hg : (sol_pre address && false) = false := by simp
    simp [hg, sol_pre, Bool.and_assoc]

/-- C5: the Bitcoin type check passes iff the first character is `1` or `3`
or the string starts with `bc1`, and the length check passes iff (Legacy and
length 33 or 34) or (P2SH and length exactly 34) or (Bech32 and length
between 42 and 62); with none of the three types the length check fails. -/
theorem claim_C5_btc_rules (address : List Char) :
    ((btc_checks address).map (fun c => c.2.1)).get? 0 =
      some ((address.head? == some '1') || (address.head? == some '3') ||
        startsWithBc1 address) ∧
      ((btc_checks address).map (fun c => c.2.1)).get? 1 =
        some (((address.head? == some '1') &&
            (address.length == 33 || address.length == 34)) ||
          ((address.head? == some '3') && (address.length == 34)) ||
          (startsWithBc1 address &&
            (decide (42 ≤ address.length) && decide (address.length ≤ 62)))) := by
  constructor
  · unfold btc_checks
    by_cases h : ((address.head? == some '1') || (address.head? == some '3')) = true <;>
      simp [h]
  · unfold btc_checks
    by_cases h : ((address.head? == some '1') || (address.head? == some '3')) = true <;>
      simp [h, btc_length_ok_eq]

/-- C6: the Base58 pre-check passes iff the string is nonempty and every
character is in the Base58 alphabet (digits 1-9, uppercase letters except I
and O, lowercase letters except l); Bitcoin runs it, and it contributes a
report entry, exactly when the type is Legacy or P2SH, while Solana always
runs it on the full string. -/
theorem claim_C6_base58 :
    (∀ s : List Char, regex_b58_match s = (!s.isEmpty && s.all base58_alpha_spec)) ∧
      (∀ address : List Char, (btc_checks address).map Prod.fst =
        ["Address type", "Length"] ++
          (if (address.head? == some '1') || (address.head? == some '3') then
            ["Base58 characters"] else [])) ∧
      (∀ address : List Char,
        ((address.head? == some '1') || (address.head? == some '3')) = true →
          (btc_checks address).get? 2 = some ("Base58 characters",
            regex_b58_match address, toString (regex_b58_match address))) ∧
      ∀ (address : List Char) (v : Bool),
        ((sol_checks address v).map (fun c => (c.1, c.2.1))).get? 1 =
          some ("Base58 characters", regex_b58_match address) := by
  refine ⟨fun s => ?_, fun address => ?_, fun address h => ?_, fun address v => ?_⟩
  · unfold regex_b58_match
    rw [all_regex_eq_all_spec]
  · unfold btc_checks
    by_cases h : ((address.head? == some '1') || (address.head? == some '3')) = true <;>
      simp [h]
  · unfold btc_checks
    simp [h]
  · unfold sol_checks
    by_cases hg : (sol_pre address && v) = true <;> simp [hg]

/-- C6 witness: a Legacy-typed input on which the Base58 entry is present. -/
theorem claim_C6_base58_witness :
    (("1abc".toList.head? == some '1') || ("1abc".toList.head? == some '3')) = true ∧
      (btc_checks "1abc".toList).get? 2 = some ("Base58 characters",
        regex_b58_match "1abc".toList, toString (regex_b58_match "1abc".toList)) :=
  ⟨by decide, claim_C6_base58.2.2.1 _ (by decide)⟩

/-- C7 fails as stated: its second part promises a reported checksum boolean
for every uppercase-containing hex part, but at the suffix of 64 `a` and one
`Z` the checksum step overruns the digest and the validator returns no
report, hence no check whose passed value could be the verification result. -/
theorem claim_C7_counterexample :
    (List.replicate 64 'a' ++ ['Z']).any Char.isUpper = true ∧
      validate_eth_address ('0' :: 'x' :: (List.replicate 64 'a' ++ ['Z']))
        false = none := by
  constructor <;> decide

/-- C7 amended: with a `0x` prefix, an all-lowercase hex part makes the
checksum check pass with detail "skipped (all lowercase)"; with an uppercase
letter present, whenever the checksum verification completes with a boolean
(it can instead abort by overrunning the digest) the check's passed value is
exactly that boolean; and the lowercase hex encoding of any 20-byte value
validates as Ethereum-valid. -/
theorem claim_C7_checksum_policy :
    (∀ rest : List Char, rest.any Char.isUpper = false →
      (eth_checks ('0' :: 'x' :: rest)).map (fun cs => cs.get? 3) =
        some (some ("EIP-55 checksum", true, "skipped (all lowercase)"))) ∧
      (∀ (rest : List Char) (b : Bool), rest.any Char.isUpper = true →
        validate_eth_checksum ('0' :: 'x' :: rest) = some b →
        (eth_checks ('0' :: 'x' :: rest)).map
            (fun cs => (cs.map fun c => c.2.1).get? 3) =
          some (some b)) ∧
      ∀ bytes : List Nat, bytes.length = 20 → (∀ b ∈ bytes, b < 256) →
        ∀ v : Bool,
          (validate ChainKind.eth ('0' :: 'x' :: hex_encode bytes) v).map
            ValidationResult.valid = some true := by
  refine ⟨fun rest h => ?_, fun rest b h hb => ?_, fun bytes h20 h256 v => ?_⟩
  · unfold eth_checks
    rw [dropPfx0x_cons]
    simp [h]
  · unfold validate_eth_checksum at hb
    rw [dropPfx0x_cons] at hb
    simp only [Option.some_bind] at hb
    unfold eth_checks
    rw [dropPfx0x_cons]
    simp [h, hb]
  · show (validate_eth_address ('0' :: 'x' :: hex_encode bytes) v).map
      ValidationResult.valid = some true
    rw [validate_eth_eq]
    have hu := hex_encode_no_upper bytes h256
    have hh := hex_encode_decode_ok bytes h256
    have hl : (('0' :: 'x' :: hex_encode bytes).length == 42) = true := by
      simp [hex_encode_length, h20]
    unfold eth_checks
    rw [dropPfx0x_cons]
    simp [hu, hh, hl, hex_encode_length, h20, run_checks_valid]

/-- C7 witness: instances of the three parts at the suffix `ab`, the suffix
`Ab` (whose checksum completes with `true`), and the zero 20-byte value. -/
theorem claim_C7_checksum_policy_witness :
    ("ab".toList.any Char.isUpper = false ∧
      (eth_checks ('0' :: 'x' :: "ab".toList)).map (fun cs => cs.get? 3) =
        some (some ("EIP-55 checksum", true, "skipped (all lowercase)"))) ∧
      ("Ab".toList.any Char.isUpper = true ∧
        validate_eth_checksum ('0' :: 'x' :: "Ab".toList) = some true ∧
        (eth_checks ('0' :: 'x' :: "Ab".toList)).map
            (fun cs => (cs.map fun c => c.2.1).get? 3) =
          some (some true)) ∧
      (List.replicate 20 0).length = 20 ∧
      (validate ChainKind.eth ('0' :: 'x' :: hex_encode (List.replicate 20 0)) false).map
        ValidationResult.valid = some true :=
  ⟨⟨by decide, claim_C7_checksum_policy.1 _ (by decide)⟩,
    ⟨by decide, by decide,
      claim_C7_checksum_policy.2.1 _ true (by decide) (by decide)⟩,
    by decide,
    claim_C7_checksum_policy.2.2 _ (by decide) (by decide) false⟩

/-- C8: whenever the Solana decode step runs (the three prior checks passed
and verbose is on), it contributes both the "Base58 decoding" and the
"Decoded length (32 bytes)" entries, and the report's verdict is the
conjunction of all five recorded outcomes. -/
theorem claim_C8_sol_decode (address : List Char) (h : sol_pre address = true) :
    (sol_checks address true).map Prod.fst =
      ["Length (32-44 chars)", "Base58 characters", "First character (1-5)",
        "Base58 decoding", "Decoded length (32 bytes)"] ∧
      (validate_sol_address address true).map ValidationResult.valid =
        some ((sol_checks address true).all fun c => c.2.1) := by
  have hb := (sol_pre_parts address h).2.1
  have hd := bs58_decode_isSome address hb
  constructor
  · unfold sol_checks
    simp [h, hd]
  · rw [validate_sol_eq]
    simp only [Option.map_some']
    rw [run_checks_valid]

/-- C8 witness: 32 `1` characters pass the three gating checks. -/
theorem claim_C8_sol_decode_witness :
    sol_pre (List.replicate 32 '1') = true ∧
      ((sol_checks (List.replicate 32 '1') true).map Prod.fst =
        ["Length (32-44 chars)", "Base58 characters", "First character (1-5)",
          "Base58 decoding", "Decoded length (32 bytes)"] ∧
        (validate_sol_address (List.replicate 32 '1') true).map
          ValidationResult.valid =
            some ((sol_checks (List.replicate 32 '1') true).all fun c => c.2.1)) :=
  ⟨by decide, claim_C8_sol_decode _ (by decide)⟩

set_option maxRecDepth 100000 in
/-- C1 names a code bug: the source tests `lower.is_digit(16)`, which is true
for the hex letters `a`-`f` as well, so every position of a 40-hex-character
address passes trivially and `validate_eth_checksum` returns true for any
case pattern. At the concrete mixed-case input below (the EIP-55 test vector
`0x5aAeb6053F3E94C9b9A09f33669435E7Ef1BeAed` with the case of its first
letter flipped) the code reports true while the claimed nibble condition
(`eip55_spec_ok`) is false. -/
theorem claim_C1_checksum_divergence :
    validate_eth_checksum "0x5AAeb6053F3E94C9b9A09f33669435E7Ef1BeAed".toList =
        some true ∧
      eip55_spec_ok "5AAeb6053F3E94C9b9A09f33669435E7Ef1BeAed".toList = false := by
  constructor
  · decide
  · decide

